import Mathlib

/-!
Shallow embedding of the channel-resolution and pixel-transform pipeline of
`exrtotiff.cpp` (function `convert`, plus the exit-status behaviour of `main`).

The source channel list of the input image is modelled as an ordered
`List String` of raw channel names.  Decoded pixel data is modelled as a
function from raw channel name and linear pixel index to a rational sample
value.  The external encoder is modelled as an oracle `enc : Nat → Bool`
giving the success of `TIFFWriteScanline` for each row, and the output-file
open as a boolean `openOk`.  The observable I/O of `convert` is collected
into an event trace.
-/

/-- `convert` lines 63-66: the channel name looks like "ABC:def.NX"; pull out
the value after the last period, or the whole string if there is no period
(`find_last_of('.')` followed by `substr(idx+1)`). -/
def semanticChannelId (name : String) : String :=
  String.mk ((name.toList.reverse.takeWhile (fun c => c != '.')).reverse)

/-- `convert` lines 43-53: the static map from input channel ids to output
channel ids ("Y" being the monochrome/Luma pseudo-target). -/
def channel_map : List (String × String) :=
  [("Z", "Y"), ("Y", "Y"), ("R", "R"), ("G", "G"), ("B", "B"),
   ("NX", "R"), ("NY", "G"), ("NZ", "B"), ("A", "A")]

/-- State of the resolution loop of `convert` (lines 55-100): the
`channel_names` map from output channel id to the raw input channel name
feeding it, the `convert_normals` flag, and the diagnostics printed to
stderr for unknown channels. -/
structure ResolveState where
  bindings : String → Option String
  convert_normals : Bool
  diagnostics : List String

/-- Outcome of the resolution loop: either the final state, or the fatal
`exit(1)` taken at line 83 when an output channel id is already present in
`channel_names` (the conflicting output id and the state at that moment are
recorded). -/
inductive ResolveResult where
  | ok (st : ResolveState)
  | conflict (output : String) (st : ResolveState)

/-- Lines 72-99 of `convert`: given the stripped id `cn` of the raw channel
name `raw`, skip unknown ids with a diagnostic (lines 72-76), take the fatal
exit when the mapped output id is already a key of `channel_names` (lines
80-84; note the key tested is `new_name`, the *pre-broadcast* output id),
and otherwise bind, broadcasting the "Y" pseudo-target to R, G and B (lines
86-99).  The raw, unstripped name is what gets bound. -/
def resolveStepCore (st : ResolveState) (cn raw : String) : ResolveResult :=
  match channel_map.lookup cn with
  | none =>
      .ok { st with diagnostics :=
              st.diagnostics ++ ["Unknown channel: " ++ cn ++ "\n"] }
  | some new_name =>
      if (st.bindings new_name).isSome then
        .conflict new_name st
      else if new_name = "Y" then
        .ok { st with bindings :=
                fun k => if k = "R" ∨ k = "G" ∨ k = "B" then some raw
                         else st.bindings k }
      else
        .ok { st with bindings :=
                fun k => if k = new_name then some raw else st.bindings k }

/-- One iteration of the loop at lines 59-100 of `convert`, processing one
raw channel name: strip the layer (lines 63-66), set `convert_normals` when
the stripped id is "NX" (lines 69-70), then dispatch on the channel map. -/
def resolveStep (st : ResolveState) (raw : String) : ResolveResult :=
  resolveStepCore
    (if semanticChannelId raw = "NX" then { st with convert_normals := true }
     else st)
    (semanticChannelId raw) raw

/-- The resolution loop folded over the remaining channel list; a conflict
aborts the remaining iterations (the process exits). -/
def resolveAux (st : ResolveState) : List String → ResolveResult
  | [] => .ok st
  | raw :: rest =>
      match resolveStep st raw with
      | .ok st' => resolveAux st' rest
      | .conflict n st' => .conflict n st'

/-- The state before the loop: empty `channel_names`, `convert_normals`
false (lines 55-58). -/
def initState : ResolveState :=
  { bindings := fun _ => none, convert_normals := false, diagnostics := [] }

/-- Full resolution of a source channel list. -/
def resolve (l : List String) : ResolveResult :=
  resolveAux initState l

/-- `true` when resolution took the fatal `exit(1)` path. -/
def isConflict : ResolveResult → Bool
  | .ok _ => false
  | .conflict _ _ => true

/-- The final loop state (used to name the state of a concrete successful
resolution). -/
def stateOf (l : List String) : ResolveState :=
  match resolve l with
  | .ok st => st
  | .conflict _ st => st

/-- The `convert_normals` flag of a successful resolution. -/
def resolveNormals (l : List String) : Option Bool :=
  match resolve l with
  | .ok st => some st.convert_normals
  | .conflict _ _ => none

/-- `convert` lines 102-110: iterate the fixed order R, G, B, A and keep the
bound ones, each paired with the raw input channel name feeding it. -/
def outputChannels (b : String → Option String) : List (String × String) :=
  (["R", "G", "B", "A"]).filterMap (fun c => (b c).map (fun raw => (c, raw)))

/-- The ordered output-channel list of a successful resolution. -/
def resolveOutputs (l : List String) : Option (List (String × String)) :=
  match resolve l with
  | .ok st => some (outputChannels st.bindings)
  | .conflict _ _ => none

/-- `convert` lines 156-160: the per-sample transform of the write loop;
when `convert_normals` is set, value = value / 2 + 0.5. -/
def transformSample (convert_normals : Bool) (v : ℚ) : ℚ :=
  if convert_normals then v / 2 + 1/2 else v

/-- `convert` lines 146-162: content of the interleaved row buffer for
scanline `y` after the x/c loops: index `x*channels+c` holds the transformed
sample of output channel `c` at pixel `y*width+x` (pixel-major,
channel-minor).  `outs` is the list of raw channel names feeding the output
channels, in output order; `planes` is the decoded pixel data per raw
channel name and linear index. -/
def interleaveRow (planes : String → Nat → ℚ) (outs : List String)
    (convert_normals : Bool) (width y : Nat) : List ℚ :=
  ((List.range width).map (fun x =>
      outs.map (fun raw =>
        transformSample convert_normals (planes raw (y * width + x))))).flatten

/-- The TIFF metadata fields set by `convert` lines 121-144. -/
structure TiffMeta where
  width : Nat
  height : Nat
  sampleFormatIEEEFP : Bool
  samplesPerPixel : Nat
  bitsPerSample : Nat
  orientationTopLeft : Bool
  planarContig : Bool
  rowsPerStrip : Nat
  photometricRGB : Bool
  hasAlpha : Bool
  extraSamplesAssocAlpha : Bool
  compressionLZW : Bool
deriving DecidableEq

/-- `convert` lines 121-144: metadata derived from the resolved state;
`channels = output_channels.size()`, `has_alpha` = "A" is a key of
`channel_names`, photometric is RGB iff `channels - has_alpha == 3`, and
EXTRASAMPLES marks associated alpha exactly when `has_alpha`. -/
def tiffMetaOf (st : ResolveState) (width height : Nat) : TiffMeta :=
  let channels := (outputChannels st.bindings).length
  let has_alpha := (st.bindings "A").isSome
  { width := width
    height := height
    sampleFormatIEEEFP := true
    samplesPerPixel := channels
    bitsPerSample := 32
    orientationTopLeft := true
    planarContig := true
    rowsPerStrip := 1
    photometricRGB := channels - (if has_alpha then 1 else 0) == 3
    hasAlpha := has_alpha
    extraSamplesAssocAlpha := has_alpha
    compressionLZW := true }

/-- Observable I/O events of `convert`: the single `readPixels` decode call
(line 114), the output-file open (line 117), each `TIFFWriteScanline` call
with its row buffer and result (line 163), and `TIFFClose` (line 167). -/
inductive Event where
  | readPixels
  | tiffOpen
  | writeScanline (y : Nat) (row : List ℚ) (ok : Bool)
  | tiffClose
deriving DecidableEq

/-- `convert` lines 148-165: the scanline loop from row `y` with `fuel` rows
remaining; a failed `TIFFWriteScanline` breaks out of the loop. -/
def scanEvents (enc : Nat → Bool) (rowOf : Nat → List ℚ) :
    Nat → Nat → List Event
  | _, 0 => []
  | y, fuel + 1 =>
      if enc y then
        Event.writeScanline y (rowOf y) true :: scanEvents enc rowOf (y + 1) fuel
      else
        [Event.writeScanline y (rowOf y) false]

/-- Result of one call of `convert`: the fatal `exit(1)` of the resolution
loop, the `runtime_error` thrown when `TIFFOpen` fails, or normal completion
with the metadata that was handed to the encoder. -/
inductive ConvertResult where
  | fatalExit (code : Nat)
  | thrown (msg : String)
  | done (meta : TiffMeta)
deriving DecidableEq

/-- The whole of `convert` (lines 12-168): resolve the channel list; on a
binding conflict the process exits with status 1 before any decode or
output-file I/O; otherwise decode (`readPixels`), open the output (throwing
on failure), derive the metadata, and run the scanline loop, always closing
the output file afterwards. -/
def convert (chanList : List String) (planes : String → Nat → ℚ)
    (width height : Nat) (openOk : Bool) (enc : Nat → Bool) :
    ConvertResult × List Event :=
  match resolve chanList with
  | .conflict _ _ => (.fatalExit 1, [])
  | .ok st =>
      if openOk then
        let outs := outputChannels st.bindings
        let rowOf := fun y =>
          interleaveRow planes (outs.map Prod.snd) st.convert_normals width y
        (.done (tiffMetaOf st width height),
         [Event.readPixels, Event.tiffOpen]
           ++ scanEvents enc rowOf 0 height ++ [Event.tiffClose])
      else
        (.thrown "Error opening output file.", [Event.readPixels])

/-- `main` lines 180-186 (for correct arity): a conflict's `exit(1)` ends
the process with status 1 directly; an exception thrown by `convert` is
caught, printed, and the process returns 0; normal completion returns 0. -/
def mainExitCode (r : ConvertResult) : Nat :=
  match r with
  | .fatalExit code => code
  | .thrown _ => 0
  | .done _ => 0

/-- The control-relevant part of a resolution state: the `channel_names`
bindings and the `convert_normals` flag (everything except the stderr
diagnostics, which influence nothing downstream). -/
def coreOf (st : ResolveState) : (String → Option String) × Bool :=
  (st.bindings, st.convert_normals)

/-- Two resolution outcomes agree up to diagnostics: same success/conflict
shape, same conflicting output id, same bindings and flag. -/
def sameCore : ResolveResult → ResolveResult → Prop
  | .ok a, .ok b => coreOf a = coreOf b
  | .conflict n a, .conflict m b => n = m ∧ coreOf a = coreOf b
  | _, _ => False

/-! ## Helper lemmas about the resolution loop -/

theorem nxState_bindings (st : ResolveState) (cn : String) :
    (if cn = "NX" then { st with convert_normals := true }
     else st).bindings = st.bindings := by
  split <;> rfl

theorem nxState_flag (st : ResolveState) (cn : String) :
    (if cn = "NX" then { st with convert_normals := true }
     else st).convert_normals = (st.convert_normals || (cn == "NX")) := by
  split <;> simp_all

theorem nxState_diagnostics (st : ResolveState) (cn : String) :
    (if cn = "NX" then { st with convert_normals := true }
     else st).diagnostics = st.diagnostics := by
  split <;> rfl

/-- The fold over `l₁ ++ l₂` runs `l₁` first and continues with `l₂` unless
a conflict already aborted. -/
theorem resolveAux_append (l₁ l₂ : List String) (st : ResolveState) :
    resolveAux st (l₁ ++ l₂) =
      match resolveAux st l₁ with
      | .ok st' => resolveAux st' l₂
      | .conflict n st' => .conflict n st' := by
  induction l₁ generalizing st with
  | nil => rfl
  | cons raw rest ih =>
      show resolveAux st (raw :: (rest ++ l₂)) = _
      cases h : resolveStep st raw <;> simp [resolveAux, h, ih]

/-- The loop never stores the pseudo-target "Y" as a key of
`channel_names`: the Luma branch stores keys R, G, B, the plain branch
stores `new_name ≠ "Y"`. -/
theorem resolveStepCore_no_Y {st st' : ResolveState} {cn raw : String}
    (h : resolveStepCore st cn raw = .ok st')
    (hY : st.bindings "Y" = none) : st'.bindings "Y" = none := by
  unfold resolveStepCore at h
  cases hl : channel_map.lookup cn with
  | none =>
      rw [hl] at h
      cases h
      exact hY
  | some nn =>
      rw [hl] at h
      dsimp only at h
      by_cases hs : (st.bindings nn).isSome
      · simp [hs] at h
      · rw [if_neg hs] at h
        by_cases hny : nn = "Y"
        · rw [if_pos hny] at h
          cases h
          simpa using hY
        · rw [if_neg hny] at h
          cases h
          have hne : ¬("Y" = nn) := fun hh => hny hh.symm
          simpa [hne] using hY

theorem resolveStep_no_Y {st st' : ResolveState} {raw : String}
    (h : resolveStep st raw = .ok st')
    (hY : st.bindings "Y" = none) : st'.bindings "Y" = none := by
  unfold resolveStep at h
  exact resolveStepCore_no_Y h (by rw [nxState_bindings]; exact hY)

theorem resolveAux_no_Y :
    ∀ (l : List String) (st₀ st : ResolveState),
      resolveAux st₀ l = .ok st → st₀.bindings "Y" = none →
      st.bindings "Y" = none := by
  intro l
  induction l with
  | nil =>
      intro st₀ st h h0
      cases h
      exact h0
  | cons raw rest ih =>
      intro st₀ st h h0
      unfold resolveAux at h
      cases hstep : resolveStep st₀ raw with
      | ok st₁ =>
          rw [hstep] at h
          exact ih st₁ st h (resolveStep_no_Y hstep h0)
      | conflict n st₁ => rw [hstep] at h; cases h

theorem resolve_no_Y {l : List String} {st : ResolveState}
    (h : resolve l = .ok st) : st.bindings "Y" = none :=
  resolveAux_no_Y l initState st h rfl

/-- `resolveStepCore` never touches the `convert_normals` flag. -/
theorem resolveStepCore_flag {st st' : ResolveState} {cn raw : String}
    (h : resolveStepCore st cn raw = .ok st') :
    st'.convert_normals = st.convert_normals := by
  unfold resolveStepCore at h
  cases hl : channel_map.lookup cn with
  | none =>
      rw [hl] at h
      cases h
      rfl
  | some nn =>
      rw [hl] at h
      dsimp only at h
      by_cases hs : (st.bindings nn).isSome
      · simp [hs] at h
      · rw [if_neg hs] at h
        by_cases hny : nn = "Y"
        · rw [if_pos hny] at h
          cases h
          rfl
        · rw [if_neg hny] at h
          cases h
          rfl

/-- Lines 69-70: one loop iteration sets `convert_normals` exactly when the
stripped id is "NX", and otherwise preserves it. -/
theorem resolveStep_flag {st st' : ResolveState} {raw : String}
    (h : resolveStep st raw = .ok st') :
    st'.convert_normals
      = (st.convert_normals || (semanticChannelId raw == "NX")) := by
  unfold resolveStep at h
  rw [resolveStepCore_flag h, nxState_flag]

/-- Every raw name stored in `channel_names` by one iteration is either
already there or is the name just processed. -/
theorem resolveStepCore_bindings_from {st st' : ResolveState}
    {cn raw : String} (h : resolveStepCore st cn raw = .ok st')
    (c r : String) (hc : st'.bindings c = some r) :
    st.bindings c = some r ∨ r = raw := by
  unfold resolveStepCore at h
  cases hl : channel_map.lookup cn with
  | none =>
      rw [hl] at h
      cases h
      exact Or.inl hc
  | some nn =>
      rw [hl] at h
      dsimp only at h
      by_cases hs : (st.bindings nn).isSome
      · simp [hs] at h
      · rw [if_neg hs] at h
        by_cases hny : nn = "Y"
        · rw [if_pos hny] at h
          cases h
          dsimp only at hc
          split at hc
          · exact Or.inr (by cases hc; rfl)
          · exact Or.inl hc
        · rw [if_neg hny] at h
          cases h
          dsimp only at hc
          split at hc
          · exact Or.inr (by cases hc; rfl)
          · exact Or.inl hc

theorem resolveStep_bindings_from {st st' : ResolveState} {raw : String}
    (h : resolveStep st raw = .ok st') (c r : String)
    (hc : st'.bindings c = some r) :
    st.bindings c = some r ∨ r = raw := by
  unfold resolveStep at h
  have := resolveStepCore_bindings_from h c r hc
  rwa [nxState_bindings] at this

/-- Lines 72-76: an iteration on a channel whose stripped id is not in the
map only appends the "Unknown channel" diagnostic; bindings and flag are
untouched and the loop continues (no conflict). -/
theorem resolveStep_unknown (st : ResolveState) (raw : String)
    (hunk : channel_map.lookup (semanticChannelId raw) = none) :
    resolveStep st raw =
      .ok { st with diagnostics := st.diagnostics
              ++ ["Unknown channel: " ++ semanticChannelId raw ++ "\n"] } := by
  have hnx : ¬(semanticChannelId raw = "NX") := by
    intro hh
    rw [hh] at hunk
    exact absurd hunk (by decide)
  unfold resolveStep resolveStepCore
  rw [if_neg hnx, hunk]

theorem stateOf_eq {l : List String} {st : ResolveState}
    (h : resolve l = .ok st) : stateOf l = st := by
  unfold stateOf
  rw [h]

/-- The diagnostics list influences nothing: from two states with the same
bindings and flag, one iteration produces same-core results. -/
theorem resolveStepCore_congr (st₁ st₂ : ResolveState) (cn raw : String)
    (hb : st₁.bindings = st₂.bindings)
    (hf : st₁.convert_normals = st₂.convert_normals) :
    sameCore (resolveStepCore st₁ cn raw) (resolveStepCore st₂ cn raw) := by
  unfold resolveStepCore
  cases hl : channel_map.lookup cn with
  | none => simp [sameCore, coreOf, hb, hf]
  | some nn =>
      dsimp only
      rw [hb]
      by_cases hs : (st₂.bindings nn).isSome
      · simp [hs, sameCore, coreOf, hb, hf]
      · simp only [hs, Bool.false_eq_true, if_false]
        by_cases hny : nn = "Y" <;>
          simp [hny, sameCore, coreOf, hb, hf]

theorem resolveStep_congr (st₁ st₂ : ResolveState) (raw : String)
    (hb : st₁.bindings = st₂.bindings)
    (hf : st₁.convert_normals = st₂.convert_normals) :
    sameCore (resolveStep st₁ raw) (resolveStep st₂ raw) := by
  unfold resolveStep
  apply resolveStepCore_congr
  · rw [nxState_bindings, nxState_bindings]
    exact hb
  · rw [nxState_flag, nxState_flag, hf]

theorem resolveAux_congr :
    ∀ (l : List String) (st₁ st₂ : ResolveState),
      st₁.bindings = st₂.bindings →
      st₁.convert_normals = st₂.convert_normals →
      sameCore (resolveAux st₁ l) (resolveAux st₂ l) := by
  intro l
  induction l with
  | nil =>
      intro st₁ st₂ hb hf
      simp [resolveAux, sameCore, coreOf, hb, hf]
  | cons raw rest ih =>
      intro st₁ st₂ hb hf
      have hstep := resolveStep_congr st₁ st₂ raw hb hf
      unfold resolveAux
      cases h₁ : resolveStep st₁ raw with
      | ok s₁ =>
          cases h₂ : resolveStep st₂ raw with
          | ok s₂ =>
              rw [h₁, h₂] at hstep
              simp only [sameCore, coreOf, Prod.mk.injEq] at hstep
              exact ih s₁ s₂ hstep.1 hstep.2
          | conflict m s₂ =>
              rw [h₁, h₂] at hstep
              simp [sameCore] at hstep
      | conflict n s₁ =>
          cases h₂ : resolveStep st₂ raw with
          | ok s₂ =>
              rw [h₁, h₂] at hstep
              simp [sameCore] at hstep
          | conflict m s₂ =>
              rw [h₁, h₂] at hstep
              exact hstep

theorem sameCore_refl (r : ResolveResult) : sameCore r r := by
  cases r <;> simp [sameCore]

/-! ## Helper lemmas about the output-channel list -/

theorem map_fst_filterMap (keys : List String) (b : String → Option String) :
    ((keys.filterMap (fun c => (b c).map (fun raw => (c, raw)))).map Prod.fst)
      = keys.filter (fun c => (b c).isSome) := by
  induction keys with
  | nil => rfl
  | cons k ks ih => cases hk : b k <;> simp [hk, ih]

theorem length_filterMap_countP (keys : List String)
    (b : String → Option String) :
    (keys.filterMap (fun c => (b c).map (fun raw => (c, raw)))).length
      = keys.countP (fun c => (b c).isSome) := by
  induction keys with
  | nil => rfl
  | cons k ks ih => cases hk : b k <;> simp [hk, ih, List.countP_cons]

theorem mem_outputChannels (b : String → Option String) (c raw : String) :
    (c, raw) ∈ outputChannels b ↔
      c ∈ (["R", "G", "B", "A"] : List String) ∧ b c = some raw := by
  unfold outputChannels
  simp only [List.mem_filterMap, Option.map_eq_some', Prod.mk.injEq]
  constructor
  · rintro ⟨a, ha, r, hr, rfl, rfl⟩
    exact ⟨ha, hr⟩
  · rintro ⟨hc, hr⟩
    exact ⟨c, hc, raw, hr, rfl, rfl⟩

/-! ## Helper lemmas about the interleaved row buffer -/

theorem flatten_getElem_uniform {α : Type} :
    ∀ (L : List (List α)) (k x c : Nat),
      (∀ l ∈ L, l.length = k) → x < L.length → c < k →
      L.flatten[x * k + c]? = L[x]?.bind (fun row => row[c]?) := by
  intro L
  induction L with
  | nil =>
      intro k x c hk hx hc
      exact absurd hx (by simp)
  | cons hd tl ih =>
      intro k x c hk hx hc
      have hhd : hd.length = k := hk hd (by simp)
      cases x with
      | zero =>
          simp only [List.flatten_cons, Nat.zero_mul, Nat.zero_add]
          rw [List.getElem?_append, if_pos (by omega)]
          simp
      | succ x' =>
          simp only [List.flatten_cons]
          rw [List.getElem?_append_right (by rw [hhd, Nat.succ_mul]; omega)]
          have h2 : (x' + 1) * k + c - hd.length = x' * k + c := by
            rw [hhd, Nat.succ_mul]
            omega
          rw [h2, ih k x' c (fun l hl => hk l (by simp [hl]))
            (by simpa using hx) hc]
          simp

theorem interleaveRow_getElem (planes : String → Nat → ℚ)
    (outs : List String) (cn : Bool) (width y x c : Nat)
    (hx : x < width) (hc : c < outs.length) :
    (interleaveRow planes outs cn width y)[x * outs.length + c]?
      = some (transformSample cn
          (planes (outs.get ⟨c, hc⟩) (y * width + x))) := by
  unfold interleaveRow
  rw [flatten_getElem_uniform _ outs.length x c
    (by intro l hl; simp only [List.mem_map] at hl; obtain ⟨a, _, rfl⟩ := hl;
        simp) (by simpa using hx) hc]
  rw [List.getElem?_map, List.getElem?_range hx]
  simp [List.getElem?_eq_getElem hc]

theorem interleaveRow_length (planes : String → Nat → ℚ)
    (outs : List String) (cn : Bool) (width y : Nat) :
    (interleaveRow planes outs cn width y).length = width * outs.length := by
  unfold interleaveRow
  rw [List.length_flatten, List.map_map]
  have h : (List.length ∘ fun x =>
      outs.map (fun raw =>
        transformSample cn (planes raw (y * width + x))))
      = fun _ => outs.length := by
    funext x
    simp
  rw [h, List.map_const']
  simp [List.sum_replicate, smul_eq_mul]

theorem interleaveRow_nil (planes : String → Nat → ℚ) (cn : Bool)
    (width y : Nat) :
    interleaveRow planes [] cn width y = [] := by
  have h := interleaveRow_length planes [] cn width y
  simp only [List.length_nil, Nat.mul_zero] at h
  exact List.length_eq_zero.mp h

/-! ## Helper lemmas about the scanline loop -/

theorem scanEvents_all_ok (enc : Nat → Bool) (rowOf : Nat → List ℚ)
    (henc : ∀ i, enc i = true) :
    ∀ (fuel y : Nat),
      scanEvents enc rowOf y fuel
        = (List.range' y fuel).map
            (fun i => Event.writeScanline i (rowOf i) true) := by
  intro fuel
  induction fuel with
  | zero => intro y; rfl
  | succ f ih =>
      intro y
      simp only [scanEvents]
      rw [if_pos (henc y), ih (y + 1), List.range'_succ]
      simp

theorem scanEvents_fail (enc : Nat → Bool) (rowOf : Nat → List ℚ) (k : Nat)
    (hbefore : ∀ i, i < k → enc i = true) (hfail : enc k = false) :
    ∀ (fuel y : Nat), y ≤ k → k < y + fuel →
      scanEvents enc rowOf y fuel
        = (List.range' y (k - y)).map
            (fun i => Event.writeScanline i (rowOf i) true)
          ++ [Event.writeScanline k (rowOf k) false] := by
  intro fuel
  induction fuel with
  | zero =>
      intro y hy hk
      exact absurd hk (by omega)
  | succ f ih =>
      intro y hy hk
      simp only [scanEvents]
      by_cases hyk : y = k
      · subst hyk
        rw [if_neg (by simp [hfail])]
        simp
      · have hylt : y < k := lt_of_le_of_ne hy hyk
        rw [if_pos (hbefore y hylt), ih (y + 1) (by omega) (by omega)]
        have hsub : k - y = (k - (y + 1)) + 1 := by omega
        rw [hsub, List.range'_succ]
        simp

/-! ## Fold-level invariants of the resolution loop -/

theorem resolveAux_all_unknown :
    ∀ (l : List String) (st₀ : ResolveState),
      (∀ raw ∈ l, channel_map.lookup (semanticChannelId raw) = none) →
      ∃ st, resolveAux st₀ l = .ok st ∧ st.bindings = st₀.bindings ∧
        st.convert_normals = st₀.convert_normals := by
  intro l
  induction l with
  | nil =>
      intro st₀ _
      exact ⟨st₀, rfl, rfl, rfl⟩
  | cons raw rest ih =>
      intro st₀ h
      have hstep := resolveStep_unknown st₀ raw (h raw (by simp))
      obtain ⟨st, hst, hb, hf⟩ :=
        ih { st₀ with diagnostics := st₀.diagnostics
               ++ ["Unknown channel: " ++ semanticChannelId raw ++ "\n"] }
          (fun r hr => h r (List.mem_cons_of_mem _ hr))
      refine ⟨st, ?_, hb, hf⟩
      unfold resolveAux
      rw [hstep]
      exact hst

theorem resolveAux_flag_iff :
    ∀ (l : List String) (st₀ st : ResolveState),
      resolveAux st₀ l = .ok st →
      (st.convert_normals = true ↔
        st₀.convert_normals = true
          ∨ ∃ raw ∈ l, semanticChannelId raw = "NX") := by
  intro l
  induction l with
  | nil =>
      intro st₀ st h
      cases h
      simp
  | cons raw rest ih =>
      intro st₀ st h
      unfold resolveAux at h
      cases hstep : resolveStep st₀ raw with
      | ok st₁ =>
          rw [hstep] at h
          rw [ih st₁ st h, resolveStep_flag hstep]
          simp only [Bool.or_eq_true, beq_iff_eq, List.mem_cons]
          constructor
          · rintro ((h1 | h2) | ⟨r, hr, hnx⟩)
            · exact Or.inl h1
            · exact Or.inr ⟨raw, Or.inl rfl, h2⟩
            · exact Or.inr ⟨r, Or.inr hr, hnx⟩
          · rintro (h1 | ⟨r, (rfl | hr), hnx⟩)
            · exact Or.inl (Or.inl h1)
            · exact Or.inl (Or.inr hnx)
            · exact Or.inr ⟨r, hr, hnx⟩
      | conflict n st₁ =>
          rw [hstep] at h
          cases h

theorem resolveAux_bindings_from :
    ∀ (l : List String) (st₀ st : ResolveState),
      resolveAux st₀ l = .ok st →
      ∀ c r, st.bindings c = some r → st₀.bindings c = some r ∨ r ∈ l := by
  intro l
  induction l with
  | nil =>
      intro st₀ st h c r hc
      cases h
      exact Or.inl hc
  | cons raw rest ih =>
      intro st₀ st h c r hc
      unfold resolveAux at h
      cases hstep : resolveStep st₀ raw with
      | ok st₁ =>
          rw [hstep] at h
          rcases ih st₁ st h c r hc with h1 | h2
          · rcases resolveStep_bindings_from hstep c r h1 with h3 | h4
            · exact Or.inl h3
            · exact Or.inr (by simp [h4])
          · exact Or.inr (by simp [h2])
      | conflict n st₁ =>
          rw [hstep] at h
          cases h

/-! ## Claim theorems -/

/-- C1 counterexample: resolving the list ["R", "Y"] (in that order) is NOT
a fatal conflict, nor is ["Y", "layer.Z"] with two Luma channels; instead R
is silently re-bound: after ["R", "Y"], all of R, G, B are bound to "Y". -/
theorem C1_counterexample :
    isConflict (resolve ["R", "Y"]) = false ∧
    isConflict (resolve ["Y", "layer.Z"]) = false ∧
    resolveOutputs ["R", "Y"]
      = some [("R", "Y"), ("G", "Y"), ("B", "Y")] := by
  decide

/-- C1 (amended): when a channel whose SemanticChannelId maps to the Luma
pseudo-target is resolved, no conflict is ever raised, regardless of
existing R, G, B bindings: the conflict check of line 80 consults only the
pre-broadcast key "Y", which is never stored, so the channel silently
re-binds R, G and B to itself. -/
theorem C1_luma_never_conflicts (l : List String) (st : ResolveState)
    (raw : String) (hok : resolve l = .ok st)
    (hY : channel_map.lookup (semanticChannelId raw) = some "Y") :
    resolve (l ++ [raw]) = .ok (stateOf (l ++ [raw])) ∧
    (stateOf (l ++ [raw])).bindings "R" = some raw ∧
    (stateOf (l ++ [raw])).bindings "G" = some raw ∧
    (stateOf (l ++ [raw])).bindings "B" = some raw := by
  have hYnone : st.bindings "Y" = none := resolve_no_Y hok
  have hnx : ¬(semanticChannelId raw = "NX") := by
    intro hh
    rw [hh] at hY
    exact absurd hY (by decide)
  have hstep : resolveStep st raw =
      .ok { st with bindings :=
              fun k => if k = "R" ∨ k = "G" ∨ k = "B" then some raw
                       else st.bindings k } := by
    unfold resolveStep resolveStepCore
    rw [if_neg hnx, hY]
    dsimp only
    rw [hYnone]
    simp
  have hres : resolve (l ++ [raw]) =
      .ok { st with bindings :=
              fun k => if k = "R" ∨ k = "G" ∨ k = "B" then some raw
                       else st.bindings k } := by
    unfold resolve
    rw [resolveAux_append]
    unfold resolve at hok
    rw [hok]
    dsimp only
    unfold resolveAux
    rw [hstep]
    rfl
  have hsteq := stateOf_eq hres
  refine ⟨by rw [hres, hsteq], ?_, ?_, ?_⟩
  · rw [hsteq]
    dsimp only
    rw [if_pos (Or.inl rfl)]
  · rw [hsteq]
    dsimp only
    rw [if_pos (Or.inr (Or.inl rfl))]
  · rw [hsteq]
    dsimp only
    rw [if_pos (Or.inr (Or.inr rfl))]

/-- C1 witness: the amended statement at the concrete input ["R"] ++ ["Y"]. -/
theorem C1_witness :
    resolve (["R"] ++ ["Y"]) = .ok (stateOf (["R"] ++ ["Y"])) ∧
    (stateOf (["R"] ++ ["Y"])).bindings "R" = some "Y" ∧
    (stateOf (["R"] ++ ["Y"])).bindings "G" = some "Y" ∧
    (stateOf (["R"] ++ ["Y"])).bindings "B" = some "Y" :=
  C1_luma_never_conflicts ["R"] (stateOf ["R"]) "Y" rfl (by decide)

/-- C2 counterexample: after resolving ["R"], output channel R is bound to
the RawChannelName "R"; resolving a second entry "R" (the *same*
RawChannelName) is nevertheless a fatal conflict, not an idempotent
no-op. -/
theorem C2_counterexample :
    (stateOf ["R"]).bindings "R" = some "R" ∧
    isConflict (resolve ["R", "R"]) = true := by
  decide

/-- C2 (amended): when a resolved non-broadcast target output channel is
already bound, the resolver raises the fatal conflict regardless of whether
the existing binding is to the same or to a different RawChannelName: the
check of line 80 compares only the output-channel key, never the bound
value. -/
theorem C2_bound_target_always_fatal (l : List String) (st : ResolveState)
    (raw nn : String) (hok : resolve l = .ok st)
    (hmap : channel_map.lookup (semanticChannelId raw) = some nn)
    (hbound : (st.bindings nn).isSome = true) :
    isConflict (resolve (l ++ [raw])) = true := by
  obtain ⟨s, hstep⟩ : ∃ s, resolveStep st raw = .conflict nn s := by
    unfold resolveStep resolveStepCore
    rw [hmap]
    dsimp only
    rw [nxState_bindings, hbound]
    refine ⟨if semanticChannelId raw = "NX"
        then { st with convert_normals := true } else st, ?_⟩
    simp
  unfold resolve
  rw [resolveAux_append]
  unfold resolve at hok
  rw [hok]
  dsimp only
  unfold resolveAux
  rw [hstep]
  rfl

/-- C2 witness: the amended statement at the concrete input ["R"] ++ ["R"]. -/
theorem C2_witness : isConflict (resolve (["R"] ++ ["R"])) = true :=
  C2_bound_target_always_fatal ["R"] (stateOf ["R"]) "R" "R" rfl
    (by decide) (by decide)

/-- C3: when ConvertNormals is true, every sample of every bound output
channel placed in the interleaved row at index `x*channels+c` is the plane
value remapped by value/2 + 0.5; when false it is the plane value
unchanged; and -1 remaps to 0, 0 to 1/2, 1 to 1. -/
theorem C3_normal_remap (planes : String → Nat → ℚ) (outs : List String)
    (width y x c : Nat) (hx : x < width) (hc : c < outs.length) :
    (interleaveRow planes outs true width y)[x * outs.length + c]?
      = some ((planes (outs.get ⟨c, hc⟩) (y * width + x)) / 2 + 1/2) ∧
    (interleaveRow planes outs false width y)[x * outs.length + c]?
      = some (planes (outs.get ⟨c, hc⟩) (y * width + x)) ∧
    transformSample true (-1) = 0 ∧
    transformSample true 0 = 1/2 ∧
    transformSample true 1 = 1 := by
  refine ⟨?_, ?_, by norm_num [transformSample], by norm_num [transformSample],
    by norm_num [transformSample]⟩
  · rw [interleaveRow_getElem planes outs true width y x c hx hc]
    simp [transformSample]
  · rw [interleaveRow_getElem planes outs false width y x c hx hc]
    simp [transformSample]

/-- C3 witness: a constant -1 plane through a single bound channel. -/
theorem C3_witness :
    (interleaveRow (fun _ _ => (-1 : ℚ)) ["NX"] true 1 0)[0]?
      = some ((-1 : ℚ) / 2 + 1/2) ∧
    (interleaveRow (fun _ _ => (-1 : ℚ)) ["NX"] false 1 0)[0]?
      = some (-1 : ℚ) ∧
    transformSample true (-1) = 0 ∧
    transformSample true 0 = 1/2 ∧
    transformSample true 1 = 1 :=
  C3_normal_remap (fun _ _ => (-1 : ℚ)) ["NX"] 1 0 0 0 (by decide) (by decide)

/-- C4: for a source channel list whose resolution does not abort, the
convert_normals flag is true iff some entry's SemanticChannelId is "NX",
regardless of layer prefix and of which binding won the R slot. -/
theorem C4_convert_normals_iff (l : List String)
    (h : isConflict (resolve l) = false) :
    resolveNormals l = some true ↔
      ∃ raw ∈ l, semanticChannelId raw = "NX" := by
  cases hres : resolve l with
  | conflict n st =>
      rw [hres] at h
      simp [isConflict] at h
  | ok st =>
      unfold resolveNormals
      rw [hres]
      have hiff := resolveAux_flag_iff l initState st hres
      simp only [initState] at hiff
      rw [Option.some_inj]
      rw [hiff]
      simp

/-- C4 witness: a layered normals channel sets the flag. -/
theorem C4_witness : resolveNormals ["layer.NX"] = some true :=
  (C4_convert_normals_iff ["layer.NX"] (by decide)).mpr
    ⟨"layer.NX", by decide, by decide⟩

/-- C5: whenever resolution detects a binding conflict, `convert` takes the
fatal exit before any pixel decode or output-file open/write: the event
trace is empty and the process status is 1. -/
theorem C5_conflict_aborts_before_io (l : List String)
    (planes : String → Nat → ℚ) (w h : Nat) (openOk : Bool)
    (enc : Nat → Bool) (hc : isConflict (resolve l) = true) :
    convert l planes w h openOk enc = (.fatalExit 1, []) ∧
    mainExitCode (convert l planes w h openOk enc).1 = 1 := by
  cases hres : resolve l with
  | ok st =>
      rw [hres] at hc
      simp [isConflict] at hc
  | conflict n st =>
      have hconv : convert l planes w h openOk enc = (.fatalExit 1, []) := by
        unfold convert
        rw [hres]
      exact ⟨hconv, by rw [hconv]; rfl⟩

/-- C5 witness: two channels both claiming output R abort the conversion
with no I/O events. -/
theorem C5_witness :
    convert ["R", "NX"] (fun _ _ => 0) 1 1 true (fun _ => true)
      = (.fatalExit 1, []) ∧
    mainExitCode
        (convert ["R", "NX"] (fun _ _ => 0) 1 1 true (fun _ => true)).1
      = 1 :=
  C5_conflict_aborts_before_io ["R", "NX"] (fun _ _ => 0) 1 1 true
    (fun _ => true) (by decide)

/-- C6: for every successful resolution the output-channel list follows the
fixed order R, G, B, A (its projection to output ids is a sublist of
[R, G, B, A]), contains exactly the bound channels, and every bound raw
name is an original entry of the source channel list; a single monochrome
"Y" yields [R, G, B] all bound to "Y". -/
theorem C6_output_order_and_binding :
    (∀ (l : List String) (st : ResolveState), resolve l = .ok st →
      ((outputChannels st.bindings).map Prod.fst).Sublist
          ["R", "G", "B", "A"] ∧
      (∀ c raw, (c, raw) ∈ outputChannels st.bindings ↔
          c ∈ (["R", "G", "B", "A"] : List String)
            ∧ st.bindings c = some raw) ∧
      (∀ c raw, st.bindings c = some raw → raw ∈ l)) ∧
    resolveOutputs ["Y"] = some [("R", "Y"), ("G", "Y"), ("B", "Y")] := by
  constructor
  · intro l st hok
    refine ⟨?_, fun c raw => mem_outputChannels st.bindings c raw, ?_⟩
    · have heq := map_fst_filterMap ["R", "G", "B", "A"] st.bindings
      unfold outputChannels
      rw [heq]
      exact List.filter_sublist _
    · intro c raw hc
      rcases resolveAux_bindings_from l initState st hok c raw hc with h1 | h2
      · exact absurd h1 (by simp [initState])
      · exact h2
  · decide

/-- C6 witness: the general part at the concrete monochrome input ["Y"]. -/
theorem C6_witness :
    ((outputChannels (stateOf ["Y"]).bindings).map Prod.fst).Sublist
        ["R", "G", "B", "A"] ∧
    ("R", "Y") ∈ outputChannels (stateOf ["Y"]).bindings ∧
    "Y" ∈ (["Y"] : List String) := by
  have h := C6_output_order_and_binding.1 ["Y"] (stateOf ["Y"]) rfl
  exact ⟨h.1, (h.2.1 "R" "Y").mpr ⟨by decide, by decide⟩,
    h.2.2 "R" "Y" (by decide)⟩

theorem outputChannels_length (b : String → Option String) :
    (outputChannels b).length
      = (["R", "G", "B", "A"] : List String).countP
          (fun c => (b c).isSome) :=
  length_filterMap_countP ["R", "G", "B", "A"] b

/-- C7: the metadata handed to the encoder has samples-per-pixel equal to
the number of bound output channels, has-alpha true iff A is bound (and
then extra-samples marks associated alpha), and photometric interpretation
RGB iff exactly 3 non-alpha components are bound, otherwise minisblack. -/
theorem C7_metadata (l : List String) (st : ResolveState) (w h : Nat)
    (_hok : resolve l = .ok st) :
    (tiffMetaOf st w h).samplesPerPixel
        = (outputChannels st.bindings).length ∧
    (outputChannels st.bindings).length
        = (["R", "G", "B", "A"] : List String).countP
            (fun c => (st.bindings c).isSome) ∧
    ((tiffMetaOf st w h).hasAlpha = true ↔
        (st.bindings "A").isSome = true) ∧
    (tiffMetaOf st w h).extraSamplesAssocAlpha
        = (tiffMetaOf st w h).hasAlpha ∧
    ((tiffMetaOf st w h).photometricRGB = true ↔
        (["R", "G", "B"] : List String).countP
            (fun c => (st.bindings c).isSome) = 3) := by
  refine ⟨rfl, outputChannels_length st.bindings, Iff.rfl, rfl, ?_⟩
  have h4 : (["R", "G", "B", "A"] : List String).countP
        (fun c => (st.bindings c).isSome)
      = (["R", "G", "B"] : List String).countP
          (fun c => (st.bindings c).isSome)
        + (if (st.bindings "A").isSome then 1 else 0) := by
    rw [show (["R", "G", "B", "A"] : List String)
        = ["R", "G", "B"] ++ ["A"] from rfl, List.countP_append]
    simp [List.countP_cons]
  show ((outputChannels st.bindings).length
      - (if (st.bindings "A").isSome then 1 else 0) == 3) = true ↔ _
  rw [outputChannels_length, h4, Nat.add_sub_cancel, beq_iff_eq]

/-- C7 witness: the metadata facts at the concrete input
["R", "G", "B", "A"]. -/
theorem C7_witness :
    (tiffMetaOf (stateOf ["R", "G", "B", "A"]) 2 2).samplesPerPixel
        = (outputChannels (stateOf ["R", "G", "B", "A"]).bindings).length ∧
    (outputChannels (stateOf ["R", "G", "B", "A"]).bindings).length
        = (["R", "G", "B", "A"] : List String).countP
            (fun c => ((stateOf ["R", "G", "B", "A"]).bindings c).isSome) ∧
    ((tiffMetaOf (stateOf ["R", "G", "B", "A"]) 2 2).hasAlpha = true ↔
        ((stateOf ["R", "G", "B", "A"]).bindings "A").isSome = true) ∧
    (tiffMetaOf (stateOf ["R", "G", "B", "A"]) 2 2).extraSamplesAssocAlpha
        = (tiffMetaOf (stateOf ["R", "G", "B", "A"]) 2 2).hasAlpha ∧
    ((tiffMetaOf (stateOf ["R", "G", "B", "A"]) 2 2).photometricRGB = true ↔
        (["R", "G", "B"] : List String).countP
            (fun c => ((stateOf ["R", "G", "B", "A"]).bindings c).isSome)
          = 3) :=
  C7_metadata ["R", "G", "B", "A"] (stateOf ["R", "G", "B", "A"]) 2 2 rfl

/-- C8: an entry whose SemanticChannelId is absent from the channel map is
reported with an "Unknown channel" diagnostic and skipped: it contributes
no binding and no flag change, and the rest of the list resolves exactly as
if the entry were not there (in particular the conversion is not
aborted by it). -/
theorem C8_unknown_skipped (l₁ l₂ : List String) (raw : String)
    (hunk : channel_map.lookup (semanticChannelId raw) = none) :
    sameCore (resolve (l₁ ++ raw :: l₂)) (resolve (l₁ ++ l₂)) ∧
    (∀ st : ResolveState, resolveStep st raw =
      .ok { st with diagnostics := st.diagnostics
              ++ ["Unknown channel: " ++ semanticChannelId raw ++ "\n"] }) := by
  refine ⟨?_, fun st => resolveStep_unknown st raw hunk⟩
  unfold resolve
  rw [resolveAux_append, resolveAux_append]
  cases h1 : resolveAux initState l₁ with
  | conflict n st => exact sameCore_refl _
  | ok st =>
      show sameCore (resolveAux st (raw :: l₂)) (resolveAux st l₂)
      have hL : resolveAux st (raw :: l₂)
          = resolveAux { st with diagnostics := st.diagnostics
              ++ ["Unknown channel: " ++ semanticChannelId raw ++ "\n"] } l₂ := by
        show (match resolveStep st raw with
          | .ok st' => resolveAux st' l₂
          | .conflict n st' => .conflict n st') = _
        rw [resolveStep_unknown st raw hunk]
      rw [hL]
      exact resolveAux_congr l₂ _ st rfl rfl

/-- C8 witness: the unknown channel "Depth" is skipped and reported. -/
theorem C8_witness :
    sameCore (resolve ["Depth", "R"]) (resolve ["R"]) ∧
    resolveStep initState "Depth" =
      .ok { initState with diagnostics := initState.diagnostics
              ++ ["Unknown channel: " ++ semanticChannelId "Depth" ++ "\n"] } := by
  have h := C8_unknown_skipped [] ["R"] "Depth" (by decide)
  exact ⟨h.1, h.2 initState⟩

/-- C9: when the encoder first fails at row k (k < height), `convert`
writes exactly rows 0..k-1 successfully, attempts row k, writes nothing
after it, still closes the output handle, completes normally (no exception:
the result is `done`), and the process exits with status 0. -/
theorem C9_row_failure_soft_stop (l : List String) (st : ResolveState)
    (planes : String → Nat → ℚ) (w h k : Nat) (enc : Nat → Bool)
    (hok : resolve l = .ok st) (hkh : k < h)
    (hbefore : ∀ y, y < k → enc y = true) (hfail : enc k = false) :
    convert l planes w h true enc =
      (.done (tiffMetaOf st w h),
        [Event.readPixels, Event.tiffOpen]
          ++ (List.range k).map (fun y => Event.writeScanline y
              (interleaveRow planes
                ((outputChannels st.bindings).map Prod.snd)
                st.convert_normals w y) true)
          ++ [Event.writeScanline k
              (interleaveRow planes
                ((outputChannels st.bindings).map Prod.snd)
                st.convert_normals w k) false,
              Event.tiffClose]) ∧
    mainExitCode (convert l planes w h true enc).1 = 0 := by
  have hscan := scanEvents_fail enc
    (fun y => interleaveRow planes
      ((outputChannels st.bindings).map Prod.snd) st.convert_normals w y)
    k hbefore hfail h 0 (by omega) (by omega)
  have hconv : convert l planes w h true enc =
      (.done (tiffMetaOf st w h),
        [Event.readPixels, Event.tiffOpen]
          ++ ((List.range' 0 (k - 0)).map (fun y => Event.writeScanline y
              (interleaveRow planes
                ((outputChannels st.bindings).map Prod.snd)
                st.convert_normals w y) true)
            ++ [Event.writeScanline k
                (interleaveRow planes
                  ((outputChannels st.bindings).map Prod.snd)
                  st.convert_normals w k) false])
          ++ [Event.tiffClose]) := by
    unfold convert
    rw [hok]
    dsimp only
    rw [hscan]
    rfl
  refine ⟨?_, by rw [hconv]; rfl⟩
  rw [hconv, Nat.sub_zero, ← List.range_eq_range']
  simp [List.append_assoc]

/-- C9 witness: an encoder that fails at row 1 of a 2-row image. -/
theorem C9_witness :
    convert ["Y"] (fun _ _ => 1) 1 2 true (fun y => y == 0) =
      (.done (tiffMetaOf (stateOf ["Y"]) 1 2),
        [Event.readPixels, Event.tiffOpen]
          ++ (List.range 1).map (fun y => Event.writeScanline y
              (interleaveRow (fun _ _ => 1)
                ((outputChannels (stateOf ["Y"]).bindings).map Prod.snd)
                (stateOf ["Y"]).convert_normals 1 y) true)
          ++ [Event.writeScanline 1
              (interleaveRow (fun _ _ => 1)
                ((outputChannels (stateOf ["Y"]).bindings).map Prod.snd)
                (stateOf ["Y"]).convert_normals 1 1) false,
              Event.tiffClose]) ∧
    mainExitCode
        (convert ["Y"] (fun _ _ => 1) 1 2 true (fun y => y == 0)).1 = 0 :=
  C9_row_failure_soft_stop ["Y"] (stateOf ["Y"]) (fun _ _ => 1) 1 2 1
    (fun y => y == 0) rfl (by decide)
    (fun y hy => by
      have hz : y = 0 := Nat.lt_one_iff.mp hy
      subst hz
      rfl)
    rfl

/-- C10: when every source channel is unrecognized, the conversion does not
stop early: resolution succeeds with an empty output-channel list, the
output is opened with samples-per-pixel 0, and the scanline loop still runs
height times over a length-0 row buffer; and the interleave-pass indices
`x*channels+c` (row buffer) and `y*width+x` (pixel plane) are in bounds,
the row buffer index 0 being in bounds only when at least one output
channel is bound (with width positive). -/
theorem C10_zero_channels (l : List String) (planes : String → Nat → ℚ)
    (w h : Nat) (enc : Nat → Bool) (outs : List String) (cn : Bool)
    (y x c : Nat)
    (hunk : ∀ raw ∈ l, channel_map.lookup (semanticChannelId raw) = none)
    (henc : ∀ i, enc i = true)
    (hx : x < w) (hc : c < outs.length) (hy : y < h) :
    resolve l = .ok (stateOf l) ∧
    outputChannels (stateOf l).bindings = [] ∧
    (tiffMetaOf (stateOf l) w h).samplesPerPixel = 0 ∧
    convert l planes w h true enc =
      (.done (tiffMetaOf (stateOf l) w h),
        [Event.readPixels, Event.tiffOpen]
          ++ (List.range h).map (fun i => Event.writeScanline i [] true)
          ++ [Event.tiffClose]) ∧
    (interleaveRow planes [] cn w y).length = 0 ∧
    x * outs.length + c < (interleaveRow planes outs cn w y).length ∧
    y * w + x < w * h ∧
    0 < (interleaveRow planes outs cn w y).length := by
  obtain ⟨st, hst, hb, hf⟩ := resolveAux_all_unknown l initState hunk
  have hres : resolve l = .ok st := hst
  have hsteq : stateOf l = st := stateOf_eq hres
  have hout : outputChannels st.bindings = [] := by
    rw [show st.bindings = initState.bindings from hb]
    rfl
  refine ⟨by rw [hsteq]; exact hres, by rw [hsteq]; exact hout, ?_, ?_, ?_,
    ?_, ?_, ?_⟩
  · rw [hsteq]
    show (outputChannels st.bindings).length = 0
    rw [hout]
    rfl
  · rw [hsteq]
    unfold convert
    rw [hres]
    dsimp only
    have hrow : (fun i => interleaveRow planes
        ((outputChannels st.bindings).map Prod.snd)
        st.convert_normals w i) = fun _ => ([] : List ℚ) := by
      funext i
      rw [hout]
      exact interleaveRow_nil planes st.convert_normals w i
    rw [hrow, scanEvents_all_ok enc (fun _ => ([] : List ℚ)) henc h 0,
      ← List.range_eq_range']
    rfl
  · rw [interleaveRow_nil]
    rfl
  · rw [interleaveRow_length]
    calc x * outs.length + c
        < x * outs.length + outs.length := by omega
      _ = (x + 1) * outs.length := by ring
      _ ≤ w * outs.length := Nat.mul_le_mul_right _ (by omega)
  · calc y * w + x
        < y * w + w := by omega
      _ = (y + 1) * w := by ring
      _ ≤ h * w := Nat.mul_le_mul_right _ (by omega)
      _ = w * h := Nat.mul_comm h w
  · rw [interleaveRow_length]
    exact Nat.mul_pos (by omega) (by omega)

/-- C10 witness: a single unrecognized channel "Depth" on a 1x1 image. -/
theorem C10_witness :
    resolve ["Depth"] = .ok (stateOf ["Depth"]) ∧
    outputChannels (stateOf ["Depth"]).bindings = [] ∧
    (tiffMetaOf (stateOf ["Depth"]) 1 1).samplesPerPixel = 0 ∧
    convert ["Depth"] (fun _ _ => 0) 1 1 true (fun _ => true) =
      (.done (tiffMetaOf (stateOf ["Depth"]) 1 1),
        [Event.readPixels, Event.tiffOpen]
          ++ (List.range 1).map (fun i => Event.writeScanline i [] true)
          ++ [Event.tiffClose]) ∧
    (interleaveRow (fun _ _ => 0) [] false 1 0).length = 0 ∧
    0 * (["Depth"] : List String).length + 0
      < (interleaveRow (fun _ _ => 0) ["Depth"] false 1 0).length ∧
    0 * 1 + 0 < 1 * 1 ∧
    0 < (interleaveRow (fun _ _ => 0) ["Depth"] false 1 0).length :=
  C10_zero_channels ["Depth"] (fun _ _ => 0) 1 1 (fun _ => true) ["Depth"]
    false 0 0 0 (by decide) (fun _ => rfl) (by decide) (by decide) (by decide)
